import Mathlib

/-!
# Verification of the schema-translation and generation pipeline

A shallow embedding of the core of the `enhanced-ai-sdk` repository:

* `src/generate-object/zod-to-baml.ts` — the recursive translator from a Zod
  schema to BAML source text (`buildBamlFromZod`, `toBamlType`, `unwrapAll`,
  `renderTypes` and their helpers);
* `src/generate-object/json-hint.ts` — the prompt-hint builder
  (`describeSchema`, `buildJsonHint`, `mergeJsonHintIntoMessages`);
* `src/index.ts` — the bounded-retry generation orchestrator
  (`generateObjectCompat`), modelled with its two collaborators (the
  text-generation call and the compiled parser) as explicit function
  parameters;
* the sha256 content hash used for the build cache key
  (`createHash('sha256').update(bamlFile).digest('hex')`), implemented
  bit-faithfully over byte lists.

Zod schema values are modelled by the closed inductive `SchemaNode`: one
constructor per Zod node kind the source distinguishes (the kind strings
`getKind` extracts from a runtime schema object become constructor tags).
Runtime-only concerns that no theorem below depends on are documented at the
definition that abstracts them (field descriptions, exotic literal values,
JavaScript's integer-like object-key reordering).
-/

/-- The literal values a `ZodLiteral` node may carry, as the translator
discriminates them by `typeof`: a string, an integer-valued number
(`Number.isInteger(val)` true), a non-integer number (carried by its
JavaScript decimal rendering, which is all the code ever reads off it),
or a boolean. Exotic literal payloads (bigint, symbol, object) are not
modelled. -/
inductive LitValue where
  | strV (v : String)
  | intV (v : Int)
  | fracV (rendered : String)
  | boolV (v : Bool)
deriving Repr, DecidableEq

/- `SchemaNode` is a nested inductive (fields under `List`), for which Lean
cannot derive `Repr`/`DecidableEq`; concrete facts about nodes are proved by
`rfl`/`simp` instead of `decide`. -/

/-- One node of the input schema: the closed set of Zod node kinds the
source distinguishes (see `getKind`/`kindOf` in `zod-to-baml.ts`).

* `zObject` carries its fields in declaration order (`Object.keys` of the
  shape; JavaScript's fronting of integer-like keys is not modelled).
* `zNumber` carries the list of check kinds (`def.checks[].kind`), of which
  the translator only inspects membership of `"int"`.
* `zArray` carries the element schema (`def.element ?? def.type ?? ...`) and
  the min-length check, which the translator ignores.
* `zEnum` / `zNativeEnum` carry the extracted string values in order; an
  empty list models `def.values` being absent, not an array, or empty
  (for `zNativeEnum`, the list is `Object.values(def.values)` already
  filtered to strings).
* `zRecord`'s key type is optional (`def.keyType ?? z.string()`).
* `zLazy` carries the schema its getter returns.
* the eight modifier wrappers each carry their inner schema (`def.innerType`,
  `def.type`, `def.schema` or `def.out`, whichever the kind stores).
* `zOther kind` is any node kind with no translation rule and no unwrappable
  inner node (e.g. `ZodDate`), carrying its kind string.

Schema descriptions (`.describe()`) are not modelled: no claim concerns
them, and `unwrapModifiers` below returns the corresponding absent value. -/
inductive SchemaNode where
  | zObject (fields : List (String × SchemaNode))
  | zString
  | zNumber (checks : List String)
  | zBoolean
  | zLiteral (v : LitValue)
  | zNull
  | zArray (elem : SchemaNode) (minLength : Option Nat)
  | zEnum (values : List String)
  | zNativeEnum (values : List String)
  | zRecord (keyType : Option SchemaNode) (valueType : SchemaNode)
  | zUnion (options : List SchemaNode)
  | zLazy (inner : SchemaNode)
  | zOptional (inner : SchemaNode)
  | zNullable (inner : SchemaNode)
  | zDefault (inner : SchemaNode)
  | zCatch (inner : SchemaNode)
  | zReadonly (inner : SchemaNode)
  | zBranded (inner : SchemaNode)
  | zEffects (inner : SchemaNode)
  | zPipeline (outNode : SchemaNode)
  | zOther (kind : String)

/-- `getKind` of `zod-to-baml.ts`: the kind string of a node. On the
inductive model this is determined by the constructor (the source recovers
it from `_def.typeName` / instance checks). -/
def getKind : SchemaNode → String
  | .zObject _ => "ZodObject"
  | .zString => "ZodString"
  | .zNumber _ => "ZodNumber"
  | .zBoolean => "ZodBoolean"
  | .zLiteral _ => "ZodLiteral"
  | .zNull => "ZodNull"
  | .zArray _ _ => "ZodArray"
  | .zEnum _ => "ZodEnum"
  | .zNativeEnum _ => "ZodNativeEnum"
  | .zRecord _ _ => "ZodRecord"
  | .zUnion _ => "ZodUnion"
  | .zLazy _ => "ZodLazy"
  | .zOptional _ => "ZodOptional"
  | .zNullable _ => "ZodNullable"
  | .zDefault _ => "ZodDefault"
  | .zCatch _ => "ZodCatch"
  | .zReadonly _ => "ZodReadonly"
  | .zBranded _ => "ZodBranded"
  | .zEffects _ => "ZodEffects"
  | .zPipeline _ => "ZodPipeline"
  | .zOther kind => kind

/-- The result record of `unwrapAll`: the unwrapped base node and the
`optional` / `nullable` flags collected while peeling. -/
structure Unwrapped where
  base : SchemaNode
  optional : Bool
  nullable : Bool

/-- The loop body of `unwrapAll`: `for (let i = 0; i < 50; i++)`, peeling
one modifier wrapper per iteration (`ZodOptional` sets the optional flag,
`ZodNullable` the nullable flag, the other six pass through to their inner
node) and stopping at the first non-wrapper node. `fuel` is the number of
remaining iterations. When the fuel runs out the still-wrapped node is
returned as `base` — the source raises no error in that case. -/
def unwrapAllGo : Nat → SchemaNode → Bool → Bool → Unwrapped
  | 0, s, opt, nul => ⟨s, opt, nul⟩
  | fuel + 1, s, opt, nul =>
    match s with
    | .zOptional inner => unwrapAllGo fuel inner true nul
    | .zNullable inner => unwrapAllGo fuel inner opt true
    | .zDefault inner => unwrapAllGo fuel inner opt nul
    | .zCatch inner => unwrapAllGo fuel inner opt nul
    | .zReadonly inner => unwrapAllGo fuel inner opt nul
    | .zBranded inner => unwrapAllGo fuel inner opt nul
    | .zEffects inner => unwrapAllGo fuel inner opt nul
    | .zPipeline outNode => unwrapAllGo fuel outNode opt nul
    | _ => ⟨s, opt, nul⟩

/-- `unwrapAll` of `zod-to-baml.ts`: peel up to 50 modifier wrappers. -/
def unwrapAll (s : SchemaNode) : Unwrapped := unwrapAllGo 50 s false false

theorem unwrapAllGo_base_size_le :
    ∀ (fuel : Nat) (s : SchemaNode) (opt nul : Bool),
      sizeOf (unwrapAllGo fuel s opt nul).base ≤ sizeOf s := by
  intro fuel
  induction fuel with
  | zero => intro s opt nul; simp [unwrapAllGo]
  | succ n ih =>
    intro s opt nul
    cases s <;> simp only [unwrapAllGo] <;> first
      | exact le_trans (ih _ _ _) (Nat.le_add_left _ _)
      | simp

theorem unwrapAll_base_size_le (s : SchemaNode) :
    sizeOf (unwrapAll s).base ≤ sizeOf s :=
  unwrapAllGo_base_size_le 50 s false false

theorem SchemaNode.one_le_sizeOf (s : SchemaNode) : 1 ≤ sizeOf s := by
  cases s <;> simp <;> omega

/-- One field of a translated class: the inline `{name, type, optional?,
description?}` entry type of `ClassType['fields']` in `zod-to-baml.ts`
(anonymous there; `Field` itself is taken by Mathlib). -/
structure ClassField where
  name : String
  type : String
  optional : Bool
  description : Option String
deriving Repr, DecidableEq

/-- `ClassType` of `zod-to-baml.ts`. -/
structure ClassType where
  name : String
  fields : List ClassField
deriving Repr, DecidableEq

/-- An insertion-ordered string-keyed map, as a JavaScript `Map`: an
association list in insertion order with no duplicate keys by construction
of its only mutator `mapSet`. -/
def mapSet {α : Type} : List (String × α) → String → α → List (String × α)
  | [], k, v => [(k, v)]
  | (k', v') :: rest, k, v =>
    if k' = k then (k, v) :: rest else (k', v') :: mapSet rest k v

/-- `Map.get`. -/
def mapLookup {α : Type} : List (String × α) → String → Option α
  | [], _ => none
  | (k', v') :: rest, k => if k' = k then some v' else mapLookup rest k

/-- `Map.has`. -/
def mapHas {α : Type} (m : List (String × α)) (k : String) : Bool :=
  (mapLookup m k).isSome

/-- `Ctx` of `zod-to-baml.ts`: the translation context. `types`, `enums` and
`aliases` are JavaScript `Map`s (iteration in insertion order), `order` the
declaration-order list of class names, `counter` the monotonic
disambiguation counter. -/
structure Ctx where
  types : List (String × ClassType)
  order : List String
  enums : List (String × List String)
  aliases : List (String × String)
  counter : Nat
deriving Repr, DecidableEq

/-- The empty context `buildBamlFromZod` starts from. -/
def emptyCtx : Ctx := ⟨[], [], [], [], 0⟩

/-- The character class `[a-zA-Z0-9]` of `toPascal`'s regex. -/
def isAlnum (c : Char) : Bool :=
  ('a' ≤ c && c ≤ 'z') || ('A' ≤ c && c ≤ 'Z') || ('0' ≤ c && c ≤ '9')

/-- Split a character list into maximal runs of `[a-zA-Z0-9]`, dropping the
separators: the effect of `.replace(/[^a-zA-Z0-9]+/g, ' ').split(' ')
.filter(Boolean)` in `toPascal`. `acc` holds the current run reversed. -/
def splitWordsGo : List Char → List Char → List (List Char)
  | [], acc => if acc.isEmpty then [] else [acc.reverse]
  | c :: cs, acc =>
    if isAlnum c then splitWordsGo cs (c :: acc)
    else if acc.isEmpty then splitWordsGo cs [] else acc.reverse :: splitWordsGo cs []

/-- `w[0].toUpperCase() + w.slice(1)` (the words here are ASCII-alphanumeric,
where `Char.toUpper` agrees with JavaScript's `toUpperCase`). -/
def capitalizeWord : List Char → List Char
  | [] => []
  | c :: cs => c.toUpper :: cs

/-- `toPascal` of `zod-to-baml.ts`. -/
def toPascal (s : String) : String :=
  String.mk (((splitWordsGo s.data []).map capitalizeWord).flatten)

/-- First character of the identifier pattern `[A-Za-z_]`. -/
def isIdentStart (c : Char) : Bool :=
  ('a' ≤ c && c ≤ 'z') || ('A' ≤ c && c ≤ 'Z') || c = '_'

/-- Rest characters of the identifier pattern `[A-Za-z0-9_]`. -/
def isIdentChar (c : Char) : Bool :=
  isIdentStart c || ('0' ≤ c && c ≤ '9')

/-- `isIdentifier` of `zod-to-baml.ts`: `/^[A-Za-z_][A-Za-z0-9_]*$/`. -/
def isIdentifier (s : String) : Bool :=
  match s.data with
  | [] => false
  | c :: cs => isIdentStart c && cs.all isIdentChar

/-- `parenIfUnion` of `zod-to-baml.ts`: parenthesize a type expression that
contains the union operator. -/
def parenIfUnion (expr : String) : String :=
  if expr.contains '|' then "(" ++ expr ++ ")" else expr

/-- One lowercase hex digit. -/
def hexDigit (n : Nat) : Char :=
  if n < 10 then Char.ofNat (48 + n) else Char.ofNat (87 + n)

/-- Four lowercase hex digits, for `JSON.stringify`'s `\uNNNN` escapes. -/
def hex4 (n : Nat) : String :=
  String.mk [hexDigit (n / 4096 % 16), hexDigit (n / 256 % 16),
    hexDigit (n / 16 % 16), hexDigit (n % 16)]

/-- `JSON.stringify`'s escape of one character inside a string literal. -/
def jsonEscapeChar (c : Char) : String :=
  if c = '"' then "\\\""
  else if c = '\\' then "\\\\"
  else if c = '\x08' then "\\b"
  else if c = '\x0c' then "\\f"
  else if c = '\n' then "\\n"
  else if c = '\r' then "\\r"
  else if c = '\t' then "\\t"
  else if c.toNat < 32 then "\\u" ++ hex4 c.toNat
  else String.singleton c

/-- `JSON.stringify(s)` for a string `s` (Lean `Char`s exclude the lone
surrogates JavaScript additionally escapes). -/
def jsonQuote (s : String) : String :=
  "\"" ++ String.join (s.data.map jsonEscapeChar) ++ "\""

/-- `JSON.stringify(val)` for a literal value. An integer number renders in
decimal (JavaScript's exponent rendering beyond 1e21 is not modelled); a
non-integer number renders as the decimal rendering it carries. -/
def jsonStringify : LitValue → String
  | .strV v => jsonQuote v
  | .intV n => toString n
  | .fracV rendered => rendered
  | .boolV b => if b then "true" else "false"

/-- JavaScript `hintName || 'Obj'`: the default replaces both an absent and
an empty (falsy) hint. -/
def strOr (h : Option String) (d : String) : String :=
  match h with
  | some s => if s = "" then d else s
  | none => d

/-- JavaScript `hintName ? hintName + suffix : undefined`: an empty hint is
falsy and yields `undefined`. -/
def hintConcat (h : Option String) (suffix : String) : Option String :=
  match h with
  | some s => if s = "" then none else some (s ++ suffix)
  | none => none

/-- The `while (ctx.types.has(name)) name = clean + ++ctx.counter` loop of
`uniqueClassName`, returning the chosen name and the updated counter. The
candidate names tried are pairwise distinct, so `types.length + 1`
iterations always reach a fresh name; `fuel` bounds the recursion at that
number (the source loop is unbounded but terminates for the same reason). -/
def uniqueNameGo (taken : String → Bool) : Nat → String → String → Nat → String × Nat
  | 0, _, name, counter => (name, counter)
  | fuel + 1, clean, name, counter =>
    if taken name then
      uniqueNameGo taken fuel clean (clean ++ toString (counter + 1)) (counter + 1)
    else (name, counter)

/-- `uniqueClassName` of `zod-to-baml.ts`, with the counter mutation made
explicit: returns the name and the new `ctx.counter`. -/
def uniqueClassName (ctx : Ctx) (base : String) : String × Nat :=
  let clean := toPascal base
  uniqueNameGo (fun n => mapHas ctx.types n) (ctx.types.length + 1) clean clean ctx.counter

/-- `uniqueAliasOrEnumName` of `zod-to-baml.ts`: as `uniqueClassName` but
fresh against both the enum and the alias map. -/
def uniqueAliasOrEnumName (ctx : Ctx) (base : String) : String × Nat :=
  let clean := toPascal base
  uniqueNameGo (fun n => mapHas ctx.enums n || mapHas ctx.aliases n)
    (ctx.enums.length + ctx.aliases.length + 1) clean clean ctx.counter

/-- The result record of `unwrapModifiers`. -/
structure Modifiers where
  base : SchemaNode
  optional : Bool
  nullable : Bool
  description : Option String

/-- `unwrapModifiers` of `zod-to-baml.ts`: `unwrapAll` plus the schema's
`description`. Descriptions (`.describe()`) are not modelled (no claim
concerns them), so the description is always the absent value here. -/
def unwrapModifiers (s : SchemaNode) : Modifiers :=
  let u := unwrapAll s
  ⟨u.base, u.optional, u.nullable, none⟩

theorem unwrapModifiers_base_size_le (s : SchemaNode) :
    sizeOf (unwrapModifiers s).base ≤ sizeOf s :=
  unwrapAll_base_size_le s

mutual

/-- `toBamlType` of `zod-to-baml.ts`: translate a schema node to a rendered
type expression, threading the mutated translation context explicitly and
returning thrown errors as `Except.error`. The body is
`toBamlBase (unwrapAll schema).base`, the source's unwrap-then-switch. -/
def toBamlType (schema : SchemaNode) (ctx : Ctx) (hintName : Option String) :
    Except String (String × Ctx) :=
  toBamlBase (unwrapAll schema).base ctx hintName
termination_by (sizeOf schema, 1)
decreasing_by
  exact Prod.Lex.right' _ (unwrapAll_base_size_le schema) (by omega)

/-- The `switch (getKind(base))` body of `toBamlType`, split out so that the
recursion is structural in the matched node. The eight wrapper cases are the
source's `default:` branch reached when `unwrapAll`'s 50-iteration budget was
exhausted: each wrapper kind stores an inner node under one of the keys the
branch probes (`innerType ?? schema ?? type ?? out ?? output`), so the branch
recurses into it; only a kind with no such inner node (`zOther`) throws. -/
def toBamlBase (base : SchemaNode) (ctx : Ctx) (hintName : Option String) :
    Except String (String × Ctx) :=
  match base with
  | .zObject fields =>
    let nc := uniqueClassName ctx (strOr hintName "Obj")
    let ctx1 : Ctx := { ctx with counter := nc.2 }
    match toBamlFields nc.1 fields ctx1 with
    | .error e => .error e
    | .ok (fieldList, ctx2) =>
      .ok (nc.1, { ctx2 with
        types := mapSet ctx2.types nc.1 ⟨nc.1, fieldList⟩,
        order := ctx2.order ++ [nc.1] })
  | .zString => .ok ("string", ctx)
  | .zNumber checks =>
    .ok (if checks.contains "int" then "int" else "float", ctx)
  | .zBoolean => .ok ("bool", ctx)
  | .zLiteral v =>
    .ok (match v with
      | .strV _ => "string"
      | .intV _ => "int"
      | .fracV _ => "float"
      | .boolV _ => "bool", ctx)
  | .zNull => .ok ("null", ctx)
  | .zArray elem _minLength =>
    match toBamlType ((unwrapAll elem).base) ctx (hintConcat hintName "Item") with
    | .error e => .error e
    | .ok (inner, ctx1) => .ok (parenIfUnion inner ++ "[]", ctx1)
  | .zEnum values =>
    if values.isEmpty then .ok ("string", ctx)
    else
      let idSafe := values.all isIdentifier
      let nc := uniqueAliasOrEnumName ctx (strOr hintName "Enum")
      let ctx1 : Ctx := { ctx with counter := nc.2 }
      let quoted := String.intercalate " | " (values.map jsonQuote)
      if idSafe then
        .ok (nc.1, { ctx1 with enums := mapSet ctx1.enums nc.1 values })
      else
        .ok (nc.1, { ctx1 with aliases := mapSet ctx1.aliases nc.1 quoted })
  | .zNativeEnum values =>
    let nc := uniqueAliasOrEnumName ctx (strOr hintName "Enum")
    let ctx1 : Ctx := { ctx with counter := nc.2 }
    let idSafe := values.all isIdentifier
    let quoted := String.intercalate " | " (values.map jsonQuote)
    if idSafe then
      .ok (nc.1, { ctx1 with enums := mapSet ctx1.enums nc.1 values })
    else
      .ok (nc.1, { ctx1 with aliases := mapSet ctx1.aliases nc.1 quoted })
  | .zRecord keyType valueType =>
    let kRes := match keyType with
      | some kt => toBamlType kt ctx (hintConcat hintName "Key")
      | none => toBamlType SchemaNode.zString ctx (hintConcat hintName "Key")
    match kRes with
    | .error e => .error e
    | .ok (k, ctx1) =>
      match toBamlType valueType ctx1 (hintConcat hintName "Val") with
      | .error e => .error e
      | .ok (v, ctx2) => .ok ("map<" ++ k ++ ", " ++ v ++ ">", ctx2)
  | .zUnion options =>
    match toBamlUnion hintName 0 options ctx with
    | .error e => .error e
    | .ok (parts, ctx1) => .ok (String.intercalate " | " parts, ctx1)
  | .zLazy inner => toBamlType inner ctx hintName
  | .zOptional inner => toBamlType inner ctx hintName
  | .zNullable inner => toBamlType inner ctx hintName
  | .zDefault inner => toBamlType inner ctx hintName
  | .zCatch inner => toBamlType inner ctx hintName
  | .zReadonly inner => toBamlType inner ctx hintName
  | .zBranded inner => toBamlType inner ctx hintName
  | .zEffects inner => toBamlType inner ctx hintName
  | .zPipeline outNode => toBamlType outNode ctx hintName
  | .zOther kind => .error ("Unsupported Zod type: " ++ kind)
termination_by (sizeOf base, 0)
decreasing_by
  all_goals refine Prod.Lex.left _ _ ?_
  all_goals first
    | (refine lt_of_le_of_lt (unwrapAll_base_size_le _) ?_; simp; omega)
    | (simp; omega)
    | simp

/-- The field loop of `toBamlType`'s `ZodObject` case: for each `{key,
fieldSchema}` in declaration order, unwrap the field's modifiers, translate
the base, and assemble the field record (`| null` union when nullable). -/
def toBamlFields (clsName : String) (fields : List (String × SchemaNode))
    (ctx : Ctx) : Except String (List ClassField × Ctx) :=
  match fields with
  | [] => .ok ([], ctx)
  | (key, fieldSchema) :: rest =>
    let u := unwrapModifiers fieldSchema
    match toBamlType u.base ctx (some (clsName ++ "_" ++ key)) with
    | .error e => .error e
    | .ok (innerType, ctx1) =>
      let ftype := if u.nullable then parenIfUnion innerType ++ " | null"
        else innerType
      match toBamlFields clsName rest ctx1 with
      | .error e => .error e
      | .ok (fs, ctx2) => .ok (⟨key, ftype, u.optional, u.description⟩ :: fs, ctx2)
termination_by (sizeOf fields, 2)
decreasing_by
  all_goals refine Prod.Lex.left _ _ ?_
  all_goals first
    | (refine lt_of_le_of_lt (unwrapModifiers_base_size_le _) ?_; simp; omega)
    | (refine lt_of_le_of_lt (unwrapAll_base_size_le _) ?_; simp; omega)
    | (simp; omega)
    | simp

/-- The option loop of `toBamlType`'s `ZodUnion` case: translate each option
with the per-option hint `hintName + 'U' + i`, collecting the parts. -/
def toBamlUnion (hintName : Option String) (i : Nat) (options : List SchemaNode)
    (ctx : Ctx) : Except String (List String × Ctx) :=
  match options with
  | [] => .ok ([], ctx)
  | o :: rest =>
    match toBamlType o ctx (hintConcat hintName ("U" ++ toString i)) with
    | .error e => .error e
    | .ok (part, ctx1) =>
      match toBamlUnion hintName (i + 1) rest ctx1 with
      | .error e => .error e
      | .ok (parts, ctx2) => .ok (part :: parts, ctx2)
termination_by (sizeOf options, 2)
decreasing_by
  all_goals refine Prod.Lex.left _ _ ?_
  all_goals first
    | (simp; omega)
    | simp

end

/-- The enum blocks of `renderTypes`: `enum Name {` , one value per line,
`}` — iterating `ctx.enums` in insertion order. -/
def enumLines : List (String × List String) → List String
  | [] => []
  | (name, values) :: rest =>
    (("enum " ++ name ++ " \x7b") :: values.map (fun v => "  " ++ v)) ++
      ["\x7d"] ++ enumLines rest

/-- The alias lines of `renderTypes`: `type Name = expr`. -/
def aliasLines : List (String × String) → List String
  | [] => []
  | (name, expr) :: rest => ("type " ++ name ++ " = " ++ expr) :: aliasLines rest

/-- The `@description(...)` annotation of a field line; JavaScript renders it
only for a truthy (present, non-empty) description. -/
def descAnnotation (d : Option String) : String :=
  match d with
  | some s => if s = "" then "" else " @description(" ++ jsonQuote s ++ ")"
  | none => ""

/-- One field line of a class block:
``  name type?` ` @description(...)``. -/
def fieldLine (f : ClassField) : String :=
  "  " ++ f.name ++ " " ++ f.type ++ (if f.optional then "?" else "") ++
    descAnnotation f.description

/-- The class blocks of `renderTypes`, following `ctx.order`. The source
reads `ctx.types.get(name)!`; a name of `order` absent from `types` cannot
arise (`toBamlType` registers both together), and is skipped here where the
source would crash on the non-null assertion. -/
def classLines (types : List (String × ClassType)) : List String → List String
  | [] => []
  | name :: rest =>
    match mapLookup types name with
    | some cls =>
      (("class " ++ cls.name ++ " \x7b") :: cls.fields.map fieldLine) ++
        ["\x7d"] ++ classLines types rest
    | none => classLines types rest

/-- `renderTypes` of `zod-to-baml.ts`: enums, then aliases, then classes in
declaration order, joined by newlines. -/
def renderTypes (ctx : Ctx) : String :=
  String.intercalate "\n"
    (enumLines ctx.enums ++ aliasLines ctx.aliases ++ classLines ctx.types ctx.order)

/-- The result of `buildBamlFromZod`. -/
structure BamlBuild where
  bamlFile : String
  funcName : String
  rootType : String
deriving Repr, DecidableEq

/-- `buildBamlFromZod` of `zod-to-baml.ts`: translate the schema from a fresh
context, then assemble generator header, rendered types and the function
stub into the BAML file text (literal braces of the source templates are
written `\x7b`/`\x7d`). -/
def buildBamlFromZod (schema : SchemaNode) : Except String BamlBuild :=
  match toBamlType schema emptyCtx (some "Root") with
  | .error e => .error e
  | .ok (rootType, ctx) =>
    let funcName := "Gen" ++ "Root"
    let header := "generator typescript \x7b\n  output_type \"typescript\"\n  module_format \"cjs\"\n\x7d\n"
    let types := renderTypes ctx
    let func := "function " ++ funcName ++ "(input: string) -> " ++ rootType ++
      " \x7b\n  client \"openai/gpt-5\"\n  prompt #\"\n    \x7b\x7b input \x7d\x7d\n    \x7b\x7b ctx.output_format \x7d\x7d\n  \"#\n\x7d\n"
    .ok ⟨String.intercalate "\n" [header, types, func], funcName, rootType⟩

mutual

/-- `describeSchema` of `json-hint.ts`: the inline structural description of
a schema for the prompt hint. Total: every case yields a string and the
default yields `"unknown"`. As in `toBamlType`, the body unwraps then
dispatches on the base node. -/
def describeSchema (s : SchemaNode) : String :=
  describeBase (unwrapAll s).base
termination_by (sizeOf s, 1)
decreasing_by
  exact Prod.Lex.right' _ (unwrapAll_base_size_le s) (by omega)

/-- The `switch (getKind(base))` body of `describeSchema`. The `zNullable` /
`zOptional` cases are reachable only when `unwrapAll`'s budget was exhausted;
every kind without a case (among them `ZodNull` and `ZodLazy`) falls to
`"unknown"`. -/
def describeBase (base : SchemaNode) : String :=
  match base with
  | .zObject fields =>
    "\x7b " ++ String.intercalate ", " (describeFields fields) ++ " \x7d"
  | .zString => "string"
  | .zNumber _ => "number"
  | .zBoolean => "boolean"
  | .zArray elem _minLength => describeSchema ((unwrapAll elem).base) ++ "[]"
  | .zEnum values =>
    if values.isEmpty then "string"
    else String.intercalate " | " (values.map jsonQuote)
  | .zNativeEnum values =>
    if values.isEmpty then "string"
    else String.intercalate " | " (values.map jsonQuote)
  | .zLiteral v => jsonStringify v
  | .zUnion options => String.intercalate " | " (describeUnion options)
  | .zRecord _keyType valueType =>
    "\x7b [key: string]: " ++ describeSchema valueType ++ " \x7d"
  | .zNullable inner => describeSchema inner ++ " | null"
  | .zOptional inner => describeSchema inner
  | _ => "unknown"
termination_by (sizeOf base, 0)
decreasing_by
  all_goals refine Prod.Lex.left _ _ ?_
  all_goals first
    | (refine lt_of_le_of_lt (unwrapAll_base_size_le _) ?_; simp; omega)
    | (simp; omega)
    | simp

/-- The field loop of `describeSchema`'s object case:
`key?: description` entries in declaration order. -/
def describeFields : List (String × SchemaNode) → List String
  | [] => []
  | (k, field) :: rest =>
    let u := unwrapAll field
    (k ++ (if u.optional then "?" else "") ++ ": " ++ describeSchema u.base) ::
      describeFields rest
termination_by fields => (sizeOf fields, 2)
decreasing_by
  all_goals refine Prod.Lex.left _ _ ?_
  all_goals first
    | (refine lt_of_le_of_lt (unwrapAll_base_size_le _) ?_; simp; omega)
    | (simp; omega)
    | simp

/-- The option map of `describeSchema`'s union case. -/
def describeUnion : List SchemaNode → List String
  | [] => []
  | o :: rest => describeSchema o :: describeUnion rest
termination_by options => (sizeOf options, 2)
decreasing_by
  all_goals refine Prod.Lex.left _ _ ?_
  all_goals first
    | (simp; omega)
    | simp

end

/-- `buildJsonHint` of `json-hint.ts`. -/
def buildJsonHint (schema : SchemaNode) : String :=
  "You are to output ONLY valid JSON with no extra text. The JSON must match the following structure: " ++
    describeSchema schema ++ "."

/-- A chat message as the hint merger reads it: its `role` and `content`.
Other properties of the message object are preserved verbatim by the
source's spread (`{ ...first, content: ... }`) and are not modelled. -/
structure ModelMessage where
  role : String
  content : String
deriving Repr, DecidableEq

/-- `mergeJsonHintIntoMessages` of `json-hint.ts`: append the hint to a
leading system message, else insert a new leading system message. -/
def mergeJsonHintIntoMessages (hint : String) (messages : List ModelMessage) :
    List ModelMessage :=
  match messages with
  | [] => [⟨"system", hint⟩]
  | first :: rest =>
    if first.role = "system" then
      { first with content := first.content ++ "\n\n" ++ hint } :: rest
    else ⟨"system", hint⟩ :: first :: rest

/-- The result object of the text-generation collaborator as the
orchestrator reads it: the two result-field conventions `text` and
`output_text`. `none` models an absent (nullish) field; `some ""` a present
empty string. Usage/finish-reason metadata is passed through untouched and
not modelled. -/
structure TextResult where
  text : Option String
  outputText : Option String
deriving Repr, DecidableEq

/-- `(textRes).text ?? (textRes).output_text ?? ''` — note that `??` falls
through only on a nullish field, so a present empty `text` hides a non-empty
`output_text` (faithful to the source). -/
def extractText (r : TextResult) : String :=
  match r.text with
  | some t => t
  | none =>
    match r.outputText with
    | some t => t
    | none => ""

/-- A failure of the orchestrator `generateObjectCompat`:
the last generation error propagated after exhausting the attempts, the
`Error('generateText returned empty text')` thrown on empty extracted text,
a parse error propagated from the compiled parser, or (unreachable for the
fixed 3 attempts) the `TypeError` of reading `.text` off the undefined
result when the loop body never ran. -/
inductive OrchFailure (E : Type) where
  | fromGen (e : E)
  | emptyText
  | fromParse (msg : String)
  | noAttempt

/-- The outcome of the retry loop of `generateObjectCompat`: the final
`generateText` result or the error to be thrown, the number of calls made,
and the `setTimeout` delays (ms) awaited between attempts. -/
structure LoopOut (E : Type) where
  res : Except E TextResult
  calls : Nat
  delays : List Nat

/-- The retry loop `for (let i = 0; i < attempts; i++) { try { ... break }
catch (err) { if (i === attempts - 1) throw err; await delay(250 * (i + 1)) } }`
of `generateObjectCompat`. The collaborator is modelled as a function from
the 0-based call index to its outcome. `rem` is `attempts - i` (the number
of loop iterations still allowed), so `rem = 1` exactly when
`i === attempts - 1`; `none` is the loop exiting with no iteration run
(only possible for `attempts = 0`). -/
def retryGo {E : Type} (gen : Nat → Except E TextResult) :
    Nat → Nat → List Nat → Option (LoopOut E)
  | 0, _, _ => none
  | rem + 1, i, delays =>
    match gen i with
    | .ok r => some ⟨.ok r, i + 1, delays⟩
    | .error e =>
      if rem = 0 then some ⟨.error e, i + 1, delays⟩
      else retryGo gen rem (i + 1) (delays ++ [250 * (i + 1)])

/-- The record of one run of `generateObjectCompat` (from the retry loop
on): final result, number of `generateText` calls, delays awaited, and
number of parser invocations. -/
structure OrchRun (E A : Type) where
  result : Except (OrchFailure E) (A × String)
  genCalls : Nat
  delays : List Nat
  parseCalls : Nat

/-- `generateObjectCompat` of `src/index.ts`, from the retry loop on (the
steps before it — schema translation, cache key, workspace and client build —
are modelled by `buildBamlFromZod`/`cacheKey`; the compiled parser
`client.parse[funcName]` is the `parse` collaborator): run the bounded retry
loop (3 attempts, linearly increasing delay); extract the text; throw on
empty text without further attempts; otherwise invoke the parser once and
return its value with the raw text. -/
def generateObjectCompat {E A : Type} (gen : Nat → Except E TextResult)
    (parse : String → Except String A) : OrchRun E A :=
  match retryGo gen 3 0 [] with
  | none => ⟨.error .noAttempt, 0, [], 0⟩
  | some out =>
    match out.res with
    | .error e => ⟨.error (.fromGen e), out.calls, out.delays, 0⟩
    | .ok textRes =>
      let text := extractText textRes
      if text = "" then ⟨.error .emptyText, out.calls, out.delays, 0⟩
      else
        match parse text with
        | .error m => ⟨.error (.fromParse m), out.calls, out.delays, 1⟩
        | .ok v => ⟨.ok (v, text), out.calls, out.delays, 1⟩

/-! ## The sha256 cache key

`src/index.ts` computes
`cacheKey = createHash('sha256').update(bamlFile).digest('hex')`.
The hash is implemented below exactly as FIPS 180-4 over the UTF-8 bytes of
the string, with 32-bit words as `Nat` reduced `% 2 ^ 32`. -/

/-- UTF-8 encoding of one character (code points exclude surrogates). -/
def utf8Encode (c : Char) : List Nat :=
  let n := c.toNat
  if n < 128 then [n]
  else if n < 2048 then [192 + n / 64, 128 + n % 64]
  else if n < 65536 then [224 + n / 4096, 128 + n / 64 % 64, 128 + n % 64]
  else [240 + n / 262144, 128 + n / 4096 % 64, 128 + n / 64 % 64, 128 + n % 64]

/-- The UTF-8 bytes of a string, as `Buffer.from(s, 'utf8')`. -/
def utf8Bytes (s : String) : List Nat :=
  (s.data.map utf8Encode).flatten

/-- Big-endian bytes of a number, fixed width. -/
def beBytes : Nat → Nat → List Nat
  | 0, _ => []
  | k + 1, n => beBytes k (n / 256) ++ [n % 256]

/-- FIPS 180-4 padding: append `0x80`, zero bytes to 56 mod 64, and the
64-bit big-endian bit length. -/
def sha256Pad (msg : List Nat) : List Nat :=
  msg ++ [128] ++ List.replicate ((119 - msg.length % 64) % 64) 0 ++
    beBytes 8 (8 * msg.length)

/-- Big-endian 32-bit words from bytes. -/
def bytesToWords : List Nat → List Nat
  | b0 :: b1 :: b2 :: b3 :: rest =>
    (((b0 * 256 + b1) * 256 + b2) * 256 + b3) :: bytesToWords rest
  | _ => []

/-- Split a word list into 16-word blocks (`acc` holds the current block
reversed). The padded message is always a whole number of blocks. -/
def chunks16Go : List Nat → List Nat → List (List Nat)
  | [], acc => if acc.isEmpty then [] else [acc.reverse]
  | w :: ws, acc =>
    if acc.length = 15 then (acc.reverse ++ [w]) :: chunks16Go ws []
    else chunks16Go ws (w :: acc)

/-- Right rotation of a 32-bit word. -/
def rotr (n x : Nat) : Nat := (x / 2 ^ n + x % 2 ^ n * 2 ^ (32 - n)) % 2 ^ 32

def smallSigma0 (x : Nat) : Nat := (rotr 7 x) ^^^ (rotr 18 x) ^^^ (x / 2 ^ 3)
def smallSigma1 (x : Nat) : Nat := (rotr 17 x) ^^^ (rotr 19 x) ^^^ (x / 2 ^ 10)
def bigSigma0 (x : Nat) : Nat := (rotr 2 x) ^^^ (rotr 13 x) ^^^ (rotr 22 x)
def bigSigma1 (x : Nat) : Nat := (rotr 6 x) ^^^ (rotr 11 x) ^^^ (rotr 25 x)
def chF (x y z : Nat) : Nat := (x &&& y) ^^^ ((x ^^^ 4294967295) &&& z)
def majF (x y z : Nat) : Nat := (x &&& y) ^^^ (x &&& z) ^^^ (y &&& z)

/-- The 64 round constants K of FIPS 180-4 (decimal renderings of the
standard 32-bit words). -/
def sha256K : List Nat :=
  [1116352408, 1899447441, 3049323471, 3921009573, 961987163, 1508970993,
   2453635748, 2870763221, 3624381080, 310598401, 607225278, 1426881987,
   1925078388, 2162078206, 2614888103, 3248222580, 3835390401, 4022224774,
   264347078, 604807628, 770255983, 1249150122, 1555081692, 1996064986,
   2554220882, 2821834349, 2952996808, 3210313671, 3336571891, 3584528711,
   113926993, 338241895, 666307205, 773529912, 1294757372, 1396182291,
   1695183700, 1986661051, 2177026350, 2456956037, 2730485921, 2820302411,
   3259730800, 3345764771, 3516065817, 3600352804, 4094571909, 275423344,
   430227734, 506948616, 659060556, 883997877, 958139571, 1322822218,
   1537002063, 1747873779, 1955562222, 2024104815, 2227730452, 2361852424,
   2428436474, 2756734187, 3204031479, 3329325298]


/-- The initial hash state H0 of FIPS 180-4 (decimal renderings). -/
def sha256H0 : List Nat :=
  [1779033703, 3144134277, 1013904242, 2773480762,
   1359893119, 2600822924, 528734635, 1541459225]

/-- Extend a 16-word block to the 64-word message schedule (`fuel` = 48). -/
def extendSchedule (w : List Nat) : Nat → List Nat
  | 0 => w
  | fuel + 1 =>
    let t := w.length
    let nw := (smallSigma1 (w.getD (t - 2) 0) + w.getD (t - 7) 0 +
      smallSigma0 (w.getD (t - 15) 0) + w.getD (t - 16) 0) % 2 ^ 32
    extendSchedule (w ++ [nw]) fuel

/-- The 64 compression rounds over the `(K, W)` pairs. -/
def compressGo : List (Nat × Nat) →
    Nat × Nat × Nat × Nat × Nat × Nat × Nat × Nat →
    Nat × Nat × Nat × Nat × Nat × Nat × Nat × Nat
  | [], st => st
  | (kt, wt) :: rest, (a, b, c, d, e, f, g, h) =>
    let t1 := (h + bigSigma1 e + chF e f g + kt + wt) % 2 ^ 32
    let t2 := (bigSigma0 a + majF a b c) % 2 ^ 32
    compressGo rest ((t1 + t2) % 2 ^ 32, a, b, c, (d + t1) % 2 ^ 32, e, f, g)

/-- One block: schedule, compress from the current state, add back. -/
def processBlock (hs : List Nat) (block : List Nat) : List Nat :=
  let w := extendSchedule block 48
  let st := compressGo (sha256K.zip w)
    (hs.getD 0 0, hs.getD 1 0, hs.getD 2 0, hs.getD 3 0,
     hs.getD 4 0, hs.getD 5 0, hs.getD 6 0, hs.getD 7 0)
  match st with
  | (a, b, c, d, e, f, g, h) =>
    [(hs.getD 0 0 + a) % 2 ^ 32, (hs.getD 1 0 + b) % 2 ^ 32,
     (hs.getD 2 0 + c) % 2 ^ 32, (hs.getD 3 0 + d) % 2 ^ 32,
     (hs.getD 4 0 + e) % 2 ^ 32, (hs.getD 5 0 + f) % 2 ^ 32,
     (hs.getD 6 0 + g) % 2 ^ 32, (hs.getD 7 0 + h) % 2 ^ 32]

/-- The eight 32-bit words of the sha256 digest of a string's UTF-8 bytes. -/
def sha256Words (s : String) : List Nat :=
  (chunks16Go (bytesToWords (sha256Pad (utf8Bytes s))) []).foldl processBlock sha256H0

/-- One byte as two lowercase hex digits. -/
def hexByte (b : Nat) : String :=
  String.mk [hexDigit (b / 16 % 16), hexDigit (b % 16)]

/-- `createHash('sha256').update(s).digest('hex')`: the 64-character
lowercase hex digest. -/
def sha256hex (s : String) : String :=
  String.join (((sha256Words s).map (beBytes 4)).flatten.map hexByte)

/-- The cache key of `generateObjectCompat`:
`createHash('sha256').update(bamlFile).digest('hex')`. -/
def cacheKey (bamlFile : String) : String := sha256hex bamlFile

/-! ## Helper lemmas -/

theorem mapLookup_mapSet_self {α : Type} (m : List (String × α)) (k : String)
    (v : α) : mapLookup (mapSet m k v) k = some v := by
  induction m with
  | nil => simp [mapSet, mapLookup]
  | cons p rest ih =>
    obtain ⟨k', v'⟩ := p
    by_cases h : k' = k <;> simp [mapSet, mapLookup, h, ih]


theorem parenIfUnion_pos {expr : String} (h : '|' ∈ expr.data) :
    parenIfUnion expr = "(" ++ expr ++ ")" := by
  have hc : expr.contains '|' = true := by
    rw [String.contains_iff]; exact h
  simp [parenIfUnion, hc]

theorem parenIfUnion_neg {expr : String} (h : ¬('|' ∈ expr.data)) :
    parenIfUnion expr = expr := by
  have hc : expr.contains '|' = false := by
    rw [Bool.eq_false_iff]
    intro hb
    rw [String.contains_iff] at hb
    exact h hb
  simp [parenIfUnion, hc]

/-! Small evaluation lemmas for `toBamlType` on single node kinds: one
rewrite of the unfolding equation per kind. They let concrete translations
be computed by chaining equalities instead of one monolithic
simplification. -/

theorem toBamlType_zString_eval (ctx : Ctx) (hintName : Option String) :
    toBamlType SchemaNode.zString ctx hintName = Except.ok ("string", ctx) := by
  rw [toBamlType.eq_1]
  show toBamlBase SchemaNode.zString ctx hintName = _
  rw [toBamlBase.eq_2]

theorem toBamlType_zNumber_eval (checks : List String) (ctx : Ctx)
    (hintName : Option String) :
    toBamlType (SchemaNode.zNumber checks) ctx hintName =
      Except.ok (if checks.contains "int" then "int" else "float", ctx) := by
  rw [toBamlType.eq_1]
  show toBamlBase (SchemaNode.zNumber checks) ctx hintName = _
  rw [toBamlBase.eq_3]

theorem toBamlType_zBoolean_eval (ctx : Ctx) (hintName : Option String) :
    toBamlType SchemaNode.zBoolean ctx hintName = Except.ok ("bool", ctx) := by
  rw [toBamlType.eq_1]
  show toBamlBase SchemaNode.zBoolean ctx hintName = _
  rw [toBamlBase.eq_4]

theorem toBamlType_zArray_eval (elem : SchemaNode) (minLength : Option Nat)
    (ctx ctx1 : Ctx) (hintName : Option String) (inner : String)
    (h1 : toBamlType ((unwrapAll elem).base) ctx (hintConcat hintName "Item") =
      Except.ok (inner, ctx1)) :
    toBamlType (SchemaNode.zArray elem minLength) ctx hintName =
      Except.ok (parenIfUnion inner ++ "[]", ctx1) := by
  rw [toBamlType.eq_1]
  show toBamlBase (SchemaNode.zArray elem minLength) ctx hintName = _
  rw [toBamlBase.eq_10, h1]

theorem toBamlFields_nil_eval (clsName : String) (ctx : Ctx) :
    toBamlFields clsName [] ctx = Except.ok ([], ctx) := by
  rw [toBamlFields.eq_1]

theorem toBamlFields_cons_eval {clsName key : String} {fs : SchemaNode}
    {rest : List (String × SchemaNode)} {ctx ctx1 ctx2 : Ctx}
    {b : SchemaNode} {opt nul : Bool} {d : Option String}
    {innerType : String} {fsOut : List ClassField}
    (hu : unwrapModifiers fs = ⟨b, opt, nul, d⟩)
    (h1 : toBamlType b ctx (some (clsName ++ "_" ++ key)) =
      Except.ok (innerType, ctx1))
    (h2 : toBamlFields clsName rest ctx1 = Except.ok (fsOut, ctx2))
    {ftype : String}
    (hft : (if nul then parenIfUnion innerType ++ " | null" else innerType) =
      ftype) :
    toBamlFields clsName ((key, fs) :: rest) ctx =
      Except.ok (⟨key, ftype, opt, d⟩ :: fsOut, ctx2) := by
  rw [toBamlFields.eq_2, hu]
  simp only [h1, h2, hft]

theorem toBamlType_zObject_eval (fields : List (String × SchemaNode))
    (ctx ctx2 : Ctx) (hintName : Option String) (name : String)
    (counter' : Nat) (fsOut : List ClassField)
    (hn1 : (uniqueClassName ctx (strOr hintName "Obj")).1 = name)
    (hn2 : (uniqueClassName ctx (strOr hintName "Obj")).2 = counter')
    (hf : toBamlFields name fields { ctx with counter := counter' } =
      Except.ok (fsOut, ctx2)) :
    toBamlType (SchemaNode.zObject fields) ctx hintName =
      Except.ok (name, { ctx2 with
        types := mapSet ctx2.types name ⟨name, fsOut⟩,
        order := ctx2.order ++ [name] }) := by
  rw [toBamlType.eq_1]
  show toBamlBase (SchemaNode.zObject fields) ctx hintName = _
  rw [toBamlBase.eq_1, hn1, hn2, hf]

/-! ## C7, C8, C9, C10 -/

/-- C7: `mergeJsonHintIntoMessages` satisfies three cases: a leading
system-role message gets the hint appended to its content with the message
count unchanged; a non-empty sequence with a non-system first message gets a
new leading system message carrying the hint, the count growing by exactly
one; an empty sequence becomes exactly one system message carrying the
hint. -/
theorem mergeJsonHintIntoMessages_cases (hint : String) (msg : ModelMessage)
    (rest : List ModelMessage) :
    mergeJsonHintIntoMessages hint [] = [⟨"system", hint⟩] ∧
    (msg.role = "system" →
      mergeJsonHintIntoMessages hint (msg :: rest) =
        { msg with content := msg.content ++ "\n\n" ++ hint } :: rest ∧
      (mergeJsonHintIntoMessages hint (msg :: rest)).length =
        (msg :: rest).length) ∧
    (msg.role ≠ "system" →
      mergeJsonHintIntoMessages hint (msg :: rest) =
        ⟨"system", hint⟩ :: msg :: rest ∧
      (mergeJsonHintIntoMessages hint (msg :: rest)).length =
        (msg :: rest).length + 1) := by
  refine ⟨rfl, fun h => ?_, fun h => ?_⟩
  · simp [mergeJsonHintIntoMessages, h]
  · simp [mergeJsonHintIntoMessages, h]

/-- Witness for C7 at concrete inputs: a leading system message, a leading
user message, and the empty sequence. -/
theorem mergeJsonHintIntoMessages_cases_witness :
    mergeJsonHintIntoMessages "H" [] = [⟨"system", "H"⟩] ∧
    mergeJsonHintIntoMessages "H" [⟨"system", "S"⟩] = [⟨"system", "S\n\nH"⟩] ∧
    mergeJsonHintIntoMessages "H" [⟨"user", "U"⟩] =
      [⟨"system", "H"⟩, ⟨"user", "U"⟩] := by
  refine ⟨(mergeJsonHintIntoMessages_cases "H" ⟨"user", "U"⟩ []).1, ?_, ?_⟩
  · exact ((mergeJsonHintIntoMessages_cases "H" ⟨"system", "S"⟩ []).2.1 rfl).1
  · exact ((mergeJsonHintIntoMessages_cases "H" ⟨"user", "U"⟩ []).2.2 (by decide)).1

/-- The round-trip schema of C8:
`{id: int-checked number, rating: number, isActive: boolean,
tags: array of string (min length 1), maybe: optional string,
nick: nullable string}`. -/
def schemaRoundTrip : SchemaNode := SchemaNode.zObject
  [("id", SchemaNode.zNumber ["int"]),
   ("rating", SchemaNode.zNumber []),
   ("isActive", SchemaNode.zBoolean),
   ("tags", SchemaNode.zArray SchemaNode.zString (some 1)),
   ("maybe", SchemaNode.zOptional SchemaNode.zString),
   ("nick", SchemaNode.zNullable SchemaNode.zString)]

/-- C8: translating the round-trip schema produces a single class (`types`
and `order` are singletons) with exactly six fields in declaration order;
the field `maybe` carries the optional flag and the field `nick`'s rendered
type is the union of `string` with `null`. -/
theorem roundTrip_six_field_class :
    toBamlType schemaRoundTrip emptyCtx (some "Root") =
      Except.ok ("Root",
        { types := [("Root", { name := "Root", fields :=
            [⟨"id", "int", false, none⟩,
             ⟨"rating", "float", false, none⟩,
             ⟨"isActive", "bool", false, none⟩,
             ⟨"tags", "string[]", false, none⟩,
             ⟨"maybe", "string", true, none⟩,
             ⟨"nick", "string | null", false, none⟩] })],
          order := ["Root"], enums := [], aliases := [], counter := 0 }) := by
  have h6 : toBamlFields "Root" [("nick", SchemaNode.zNullable SchemaNode.zString)]
      emptyCtx = Except.ok ([⟨"nick", "string | null", false, none⟩], emptyCtx) :=
    toBamlFields_cons_eval
      (show unwrapModifiers (SchemaNode.zNullable SchemaNode.zString) =
        ⟨SchemaNode.zString, false, true, none⟩ from rfl)
      (toBamlType_zString_eval emptyCtx _)
      (toBamlFields_nil_eval "Root" emptyCtx)
      (by rw [parenIfUnion_neg (by decide)]; rfl)
  have h5 : toBamlFields "Root"
      [("maybe", SchemaNode.zOptional SchemaNode.zString),
       ("nick", SchemaNode.zNullable SchemaNode.zString)] emptyCtx =
      Except.ok ([⟨"maybe", "string", true, none⟩,
        ⟨"nick", "string | null", false, none⟩], emptyCtx) :=
    toBamlFields_cons_eval
      (show unwrapModifiers (SchemaNode.zOptional SchemaNode.zString) =
        ⟨SchemaNode.zString, true, false, none⟩ from rfl)
      (toBamlType_zString_eval emptyCtx _) h6 rfl
  have htag : toBamlType (SchemaNode.zArray SchemaNode.zString (some 1)) emptyCtx
      (some "Root_tags") = Except.ok ("string[]", emptyCtx) :=
    (toBamlType_zArray_eval SchemaNode.zString (some 1) emptyCtx emptyCtx
      (some "Root_tags") "string" (toBamlType_zString_eval emptyCtx _)).trans
      (by rw [parenIfUnion_neg (by decide)]; rfl)
  have h4 : toBamlFields "Root"
      [("tags", SchemaNode.zArray SchemaNode.zString (some 1)),
       ("maybe", SchemaNode.zOptional SchemaNode.zString),
       ("nick", SchemaNode.zNullable SchemaNode.zString)] emptyCtx =
      Except.ok ([⟨"tags", "string[]", false, none⟩,
        ⟨"maybe", "string", true, none⟩,
        ⟨"nick", "string | null", false, none⟩], emptyCtx) :=
    toBamlFields_cons_eval
      (show unwrapModifiers (SchemaNode.zArray SchemaNode.zString (some 1)) =
        ⟨SchemaNode.zArray SchemaNode.zString (some 1), false, false, none⟩ from rfl)
      htag h5 rfl
  have h3 : toBamlFields "Root"
      [("isActive", SchemaNode.zBoolean),
       ("tags", SchemaNode.zArray SchemaNode.zString (some 1)),
       ("maybe", SchemaNode.zOptional SchemaNode.zString),
       ("nick", SchemaNode.zNullable SchemaNode.zString)] emptyCtx =
      Except.ok ([⟨"isActive", "bool", false, none⟩,
        ⟨"tags", "string[]", false, none⟩,
        ⟨"maybe", "string", true, none⟩,
        ⟨"nick", "string | null", false, none⟩], emptyCtx) :=
    toBamlFields_cons_eval
      (show unwrapModifiers SchemaNode.zBoolean =
        ⟨SchemaNode.zBoolean, false, false, none⟩ from rfl)
      (toBamlType_zBoolean_eval emptyCtx _) h4 rfl
  have h2 : toBamlFields "Root"
      [("rating", SchemaNode.zNumber []),
       ("isActive", SchemaNode.zBoolean),
       ("tags", SchemaNode.zArray SchemaNode.zString (some 1)),
       ("maybe", SchemaNode.zOptional SchemaNode.zString),
       ("nick", SchemaNode.zNullable SchemaNode.zString)] emptyCtx =
      Except.ok ([⟨"rating", "float", false, none⟩,
        ⟨"isActive", "bool", false, none⟩,
        ⟨"tags", "string[]", false, none⟩,
        ⟨"maybe", "string", true, none⟩,
        ⟨"nick", "string | null", false, none⟩], emptyCtx) :=
    toBamlFields_cons_eval
      (show unwrapModifiers (SchemaNode.zNumber []) =
        ⟨SchemaNode.zNumber [], false, false, none⟩ from rfl)
      ((toBamlType_zNumber_eval [] emptyCtx _).trans rfl) h3 rfl
  have h1 : toBamlFields "Root"
      [("id", SchemaNode.zNumber ["int"]),
       ("rating", SchemaNode.zNumber []),
       ("isActive", SchemaNode.zBoolean),
       ("tags", SchemaNode.zArray SchemaNode.zString (some 1)),
       ("maybe", SchemaNode.zOptional SchemaNode.zString),
       ("nick", SchemaNode.zNullable SchemaNode.zString)] emptyCtx =
      Except.ok ([⟨"id", "int", false, none⟩,
        ⟨"rating", "float", false, none⟩,
        ⟨"isActive", "bool", false, none⟩,
        ⟨"tags", "string[]", false, none⟩,
        ⟨"maybe", "string", true, none⟩,
        ⟨"nick", "string | null", false, none⟩], emptyCtx) :=
    toBamlFields_cons_eval
      (show unwrapModifiers (SchemaNode.zNumber ["int"]) =
        ⟨SchemaNode.zNumber ["int"], false, false, none⟩ from rfl)
      ((toBamlType_zNumber_eval ["int"] emptyCtx _).trans rfl) h2 rfl
  exact (toBamlType_zObject_eval _ emptyCtx emptyCtx (some "Root") "Root" 0 _
    rfl rfl h1).trans rfl

/-- C9: `describeSchema` is total by its type (`SchemaNode → String`, no
error channel — the source has no `throw`); on a kind with no description
rule it yields the literal `"unknown"`, and hint building yields a proper
instruction string, while `toBamlType` on the same node (an unsupported
kind with no unwrappable inner node) throws `Unsupported Zod type`. -/
theorem describeSchema_total_translator_rejects (k : String) (ctx : Ctx)
    (hintName : Option String) :
    describeSchema (SchemaNode.zOther k) = "unknown" ∧
    buildJsonHint (SchemaNode.zOther k) =
      "You are to output ONLY valid JSON with no extra text. The JSON must match the following structure: unknown." ∧
    toBamlType (SchemaNode.zOther k) ctx hintName =
      Except.error ("Unsupported Zod type: " ++ k) := by
  have h1 : describeSchema (SchemaNode.zOther k) = "unknown" := by
    simp [describeSchema, describeBase, unwrapAll, unwrapAllGo]
  refine ⟨h1, ?_, ?_⟩
  · simp only [buildJsonHint, h1]
    rfl
  · simp [toBamlType, toBamlBase, unwrapAll, unwrapAllGo]

/-- C10: an `Enum` node whose value list could not be determined (extracted
values empty) translates to the primitive `string` without failing; the
returned context is the input context itself, so the enum and alias maps
are untouched. -/
theorem toBamlType_enum_empty_fallback (ctx : Ctx) (hintName : Option String) :
    toBamlType (SchemaNode.zEnum []) ctx hintName = Except.ok ("string", ctx) := by
  simp [toBamlType, toBamlBase, unwrapAll, unwrapAllGo]

/-! ## C2, C3 -/

/-- C2: `generateObjectCompat` retries the text-generation call on any
thrown error, bounded at 3 attempts total with linearly increasing delays
(250ms then 500ms). Failing twice then succeeding returns that success after
exactly two retries (3 calls, both delays awaited); failing on all three
calls propagates the third error unchanged after 3 calls. -/
theorem generateObjectCompat_retry_bound {E A : Type}
    (gen : Nat → Except E TextResult) (parse : String → Except String A)
    (e0 e1 e2 : E) (r : TextResult) :
    (gen 0 = Except.error e0 → gen 1 = Except.error e1 → gen 2 = Except.ok r →
      retryGo gen 3 0 [] = some ⟨Except.ok r, 3, [250, 500]⟩ ∧
      (generateObjectCompat gen parse).genCalls = 3 ∧
      (generateObjectCompat gen parse).delays = [250, 500]) ∧
    (gen 0 = Except.error e0 → gen 1 = Except.error e1 →
      gen 2 = Except.error e2 →
      (generateObjectCompat gen parse).result =
        Except.error (OrchFailure.fromGen e2) ∧
      (generateObjectCompat gen parse).genCalls = 3 ∧
      (generateObjectCompat gen parse).delays = [250, 500]) := by
  constructor
  · intro h0 h1 h2
    have hloop : retryGo gen 3 0 [] = some ⟨Except.ok r, 3, [250, 500]⟩ := by
      simp [retryGo, h0, h1, h2]
    refine ⟨hloop, ?_, ?_⟩ <;>
      · simp only [generateObjectCompat, hloop]
        by_cases ht : extractText r = "" <;>
          cases hp : parse (extractText r) <;> simp [ht, hp]
  · intro h0 h1 h2
    have hloop : retryGo gen 3 0 [] = some ⟨Except.error e2, 3, [250, 500]⟩ := by
      simp [retryGo, h0, h1, h2]
    simp [generateObjectCompat, hloop]

/-- Witness for C2 at a concrete collaborator: fails on calls 0 and 1,
succeeds on call 2; and one failing on all three calls. -/
theorem generateObjectCompat_retry_bound_witness :
    (retryGo (fun i => if i = 0 then (Except.error "e0" : Except String TextResult)
        else if i = 1 then Except.error "e1" else Except.ok ⟨some "out", none⟩)
        3 0 [] = some ⟨Except.ok ⟨some "out", none⟩, 3, [250, 500]⟩ ∧
      (generateObjectCompat (fun i => if i = 0 then (Except.error "e0" : Except String TextResult)
        else if i = 1 then Except.error "e1" else Except.ok ⟨some "out", none⟩)
        (fun t => (Except.ok t : Except String String))).genCalls = 3 ∧
      (generateObjectCompat (fun i => if i = 0 then (Except.error "e0" : Except String TextResult)
        else if i = 1 then Except.error "e1" else Except.ok ⟨some "out", none⟩)
        (fun t => (Except.ok t : Except String String))).delays = [250, 500]) ∧
    ((generateObjectCompat (fun i => if i = 0 then (Except.error "e0" : Except String TextResult)
        else if i = 1 then Except.error "e1" else Except.error "e2")
        (fun t => (Except.ok t : Except String String))).result =
      Except.error (OrchFailure.fromGen "e2") ∧
      (generateObjectCompat (fun i => if i = 0 then (Except.error "e0" : Except String TextResult)
        else if i = 1 then Except.error "e1" else Except.error "e2")
        (fun t => (Except.ok t : Except String String))).genCalls = 3 ∧
      (generateObjectCompat (fun i => if i = 0 then (Except.error "e0" : Except String TextResult)
        else if i = 1 then Except.error "e1" else Except.error "e2")
        (fun t => (Except.ok t : Except String String))).delays = [250, 500]) :=
  ⟨(generateObjectCompat_retry_bound _ _ "e0" "e1" "e?" ⟨some "out", none⟩).1
      rfl rfl rfl,
   (generateObjectCompat_retry_bound _ _ "e0" "e1" "e2" ⟨none, none⟩).2
      rfl rfl rfl⟩

/-- C3: when the first generation call succeeds but both result-field
conventions are absent or empty, `generateObjectCompat` fails immediately
with the empty-output error: exactly one generation call is made (the
empty-output check lies outside the retry loop, so no further attempt
happens) and the parser is never invoked. -/
theorem generateObjectCompat_empty_output {E A : Type}
    (gen : Nat → Except E TextResult) (parse : String → Except String A)
    (r : TextResult) (hgen : gen 0 = Except.ok r)
    (ht : r.text = none ∨ r.text = some "")
    (ho : r.outputText = none ∨ r.outputText = some "") :
    (generateObjectCompat gen parse).result =
      Except.error OrchFailure.emptyText ∧
    (generateObjectCompat gen parse).genCalls = 1 ∧
    (generateObjectCompat gen parse).parseCalls = 0 := by
  have hext : extractText r = "" := by
    rcases ht with h | h <;> rcases ho with h2 | h2 <;> simp [extractText, h, h2]
  have hloop : retryGo gen 3 0 [] = some ⟨Except.ok r, 1, []⟩ := by
    simp [retryGo, hgen]
  simp [generateObjectCompat, hloop, hext]

/-- Witness for C3: a collaborator that succeeds at once with `text` absent
and `output_text` present but empty. -/
theorem generateObjectCompat_empty_output_witness :
    (generateObjectCompat
        (fun _ => (Except.ok ⟨none, some ""⟩ : Except String TextResult))
        (fun t => (Except.ok t : Except String String))).result =
      Except.error OrchFailure.emptyText ∧
    (generateObjectCompat
        (fun _ => (Except.ok ⟨none, some ""⟩ : Except String TextResult))
        (fun t => (Except.ok t : Except String String))).genCalls = 1 ∧
    (generateObjectCompat
        (fun _ => (Except.ok ⟨none, some ""⟩ : Except String TextResult))
        (fun t => (Except.ok t : Except String String))).parseCalls = 0 :=
  generateObjectCompat_empty_output _ _ ⟨none, some ""⟩ rfl (Or.inl rfl)
    (Or.inr rfl)

/-! ## C4 -/

/-- A chain of `n` nested `ZodOptional` wrappers around `ZodString`. -/
def optChain : Nat → SchemaNode
  | 0 => SchemaNode.zString
  | n + 1 => SchemaNode.zOptional (optChain n)

theorem unwrapAllGo_optChain :
    ∀ (fuel n : Nat) (opt nul : Bool),
      (unwrapAllGo fuel (optChain n) opt nul).base = optChain (n - fuel) := by
  intro fuel
  induction fuel with
  | zero => intro n opt nul; simp [unwrapAllGo]
  | succ f ih =>
    intro n opt nul
    cases n with
    | zero => simp [optChain, unwrapAllGo]
    | succ m => simp [optChain, unwrapAllGo, ih, Nat.succ_sub_succ]

/-- C4 counterexample: a wrapper chain of depth 51 — deeper than the fixed
bound of 50 — does NOT fail: `unwrapAll` stops with one wrapper still in
place, and `toBamlType` translates the chain to `string` anyway (the
default branch unwraps the leftover wrapper), returning the context
untouched. -/
theorem unwrap_budget_no_error :
    (unwrapAll (optChain 51)).base = SchemaNode.zOptional SchemaNode.zString ∧
    toBamlType (optChain 51) emptyCtx (some "Root") =
      Except.ok ("string", emptyCtx) := by
  constructor
  · rfl
  · simp only [toBamlType]
    rw [show (unwrapAll (optChain 51)).base =
      SchemaNode.zOptional SchemaNode.zString from rfl]
    simp [toBamlBase, toBamlType, unwrapAll, unwrapAllGo]

/-- C4 (amended): exceeding the 50-iteration unwrap budget raises no error.
`unwrapAll` returns the still-wrapped node, and `toBamlType`'s default
branch keeps unwrapping it, so a `ZodOptional` chain of any depth over
`ZodString` translates successfully to `string` with the context
untouched. -/
theorem unwrap_budget_translation_succeeds :
    ∀ (n : Nat) (ctx : Ctx) (hintName : Option String),
      toBamlType (optChain n) ctx hintName = Except.ok ("string", ctx) := by
  intro n
  induction n using Nat.strong_induction_on with
  | _ n ih =>
    intro ctx hintName
    by_cases h : n ≤ 50
    · have hb : (unwrapAll (optChain n)).base = SchemaNode.zString := by
        have hx := unwrapAllGo_optChain 50 n false false
        rw [Nat.sub_eq_zero_of_le h] at hx
        exact hx
      simp only [toBamlType]
      rw [hb]
      simp [toBamlBase]
    · push_neg at h
      obtain ⟨m, rfl⟩ : ∃ m, n = m + 51 := ⟨n - 51, by omega⟩
      have hb : (unwrapAll (optChain (m + 51))).base =
          SchemaNode.zOptional (optChain m) := by
        have hx := unwrapAllGo_optChain 50 (m + 51) false false
        rw [show m + 51 - 50 = m + 1 from by omega] at hx
        exact hx
      simp only [toBamlType]
      rw [hb]
      simp only [toBamlBase]
      exact ih m (by omega) ctx hintName

/-! ## C5 -/

/-- C5 counterexample: the `Enum` node with an empty extracted value list.
Every value of the empty list matches the identifier pattern (vacuously),
yet translation does not register a named enumeration and does not return
an enumeration name: it returns the primitive `string` with the context —
whose enum map is empty — unchanged. -/
theorem enum_empty_values_counterexample :
    (List.all ([] : List String) isIdentifier = true) ∧
    toBamlType (SchemaNode.zEnum []) emptyCtx (some "Enum") =
      Except.ok ("string", emptyCtx) ∧
    emptyCtx.enums = [] := by
  refine ⟨rfl, ?_, rfl⟩
  simp [toBamlType, toBamlBase, unwrapAll, unwrapAllGo]

/-- C5 (amended): for every `Enum` node with a non-empty extracted value
list and every `NativeEnum` node: if every value matches
`[A-Za-z_][A-Za-z0-9_]*`, translation registers a named enumeration holding
exactly those values in the context's enum map and returns its name,
leaving the alias map unchanged; if any value is not identifier-safe, it
registers a literal-union alias of the JSON-quoted values joined by the
union operator and returns its name, leaving the enum map unchanged — never
a named enumeration. -/
theorem toBamlType_enum_policy (values : List String) (ctx : Ctx)
    (hintName : Option String) :
    (values ≠ [] → values.all isIdentifier = true →
      ∃ name ctx2,
        toBamlType (SchemaNode.zEnum values) ctx hintName =
          Except.ok (name, ctx2) ∧
        mapLookup ctx2.enums name = some values ∧
        ctx2.aliases = ctx.aliases) ∧
    (values.all isIdentifier = false →
      ∃ name ctx2,
        toBamlType (SchemaNode.zEnum values) ctx hintName =
          Except.ok (name, ctx2) ∧
        mapLookup ctx2.aliases name =
          some (String.intercalate " | " (values.map jsonQuote)) ∧
        ctx2.enums = ctx.enums) ∧
    (values.all isIdentifier = true →
      ∃ name ctx2,
        toBamlType (SchemaNode.zNativeEnum values) ctx hintName =
          Except.ok (name, ctx2) ∧
        mapLookup ctx2.enums name = some values ∧
        ctx2.aliases = ctx.aliases) ∧
    (values.all isIdentifier = false →
      ∃ name ctx2,
        toBamlType (SchemaNode.zNativeEnum values) ctx hintName =
          Except.ok (name, ctx2) ∧
        mapLookup ctx2.aliases name =
          some (String.intercalate " | " (values.map jsonQuote)) ∧
        ctx2.enums = ctx.enums) := by
  refine ⟨fun hne hid => ?_, fun hid => ?_, fun hid => ?_, fun hid => ?_⟩
  · have hie : values.isEmpty = false := by cases values <;> simp_all
    refine ⟨(uniqueAliasOrEnumName ctx (strOr hintName "Enum")).1,
      { ctx with
        counter := (uniqueAliasOrEnumName ctx (strOr hintName "Enum")).2,
        enums := mapSet ctx.enums
          (uniqueAliasOrEnumName ctx (strOr hintName "Enum")).1 values },
      ?_, ?_, ?_⟩
    · rw [toBamlType.eq_1]
      show toBamlBase (SchemaNode.zEnum values) ctx hintName = _
      rw [toBamlBase.eq_11]
      simp [hie, hid]
    · exact mapLookup_mapSet_self _ _ _
    · rfl
  · have hne : values ≠ [] := by
      intro h; subst h; simp at hid
    have hie : values.isEmpty = false := by cases values <;> simp_all
    refine ⟨(uniqueAliasOrEnumName ctx (strOr hintName "Enum")).1,
      { ctx with
        counter := (uniqueAliasOrEnumName ctx (strOr hintName "Enum")).2,
        aliases := mapSet ctx.aliases
          (uniqueAliasOrEnumName ctx (strOr hintName "Enum")).1
          (String.intercalate " | " (values.map jsonQuote)) },
      ?_, ?_, ?_⟩
    · rw [toBamlType.eq_1]
      show toBamlBase (SchemaNode.zEnum values) ctx hintName = _
      rw [toBamlBase.eq_11]
      simp [hie, hid]
    · exact mapLookup_mapSet_self _ _ _
    · rfl
  · refine ⟨(uniqueAliasOrEnumName ctx (strOr hintName "Enum")).1,
      { ctx with
        counter := (uniqueAliasOrEnumName ctx (strOr hintName "Enum")).2,
        enums := mapSet ctx.enums
          (uniqueAliasOrEnumName ctx (strOr hintName "Enum")).1 values },
      ?_, ?_, ?_⟩
    · rw [toBamlType.eq_1]
      show toBamlBase (SchemaNode.zNativeEnum values) ctx hintName = _
      rw [toBamlBase.eq_12]
      simp [hid]
    · exact mapLookup_mapSet_self _ _ _
    · rfl
  · refine ⟨(uniqueAliasOrEnumName ctx (strOr hintName "Enum")).1,
      { ctx with
        counter := (uniqueAliasOrEnumName ctx (strOr hintName "Enum")).2,
        aliases := mapSet ctx.aliases
          (uniqueAliasOrEnumName ctx (strOr hintName "Enum")).1
          (String.intercalate " | " (values.map jsonQuote)) },
      ?_, ?_, ?_⟩
    · rw [toBamlType.eq_1]
      show toBamlBase (SchemaNode.zNativeEnum values) ctx hintName = _
      rw [toBamlBase.eq_12]
      simp [hid]
    · exact mapLookup_mapSet_self _ _ _
    · rfl

/-- Witness for C5: `["Admin", "User"]` registers a named enumeration (alias
map untouched); `["North America"]` (a non-identifier value) registers a
literal-union alias (enum map untouched, so never a named enumeration). -/
theorem toBamlType_enum_policy_witness :
    (∃ name ctx2,
      toBamlType (SchemaNode.zEnum ["Admin", "User"]) emptyCtx (some "Role") =
        Except.ok (name, ctx2) ∧
      mapLookup ctx2.enums name = some ["Admin", "User"] ∧
      ctx2.aliases = emptyCtx.aliases) ∧
    (∃ name ctx2,
      toBamlType (SchemaNode.zEnum ["North America"]) emptyCtx (some "Area") =
        Except.ok (name, ctx2) ∧
      mapLookup ctx2.aliases name =
        some (String.intercalate " | " (["North America"].map jsonQuote)) ∧
      ctx2.enums = emptyCtx.enums) :=
  ⟨(toBamlType_enum_policy ["Admin", "User"] emptyCtx (some "Role")).1
      (by decide) (by decide),
   (toBamlType_enum_policy ["North America"] emptyCtx (some "Area")).2.1
      (by decide)⟩

/-! ## C6 -/

/-- C6: an `Array` node whose element translates to the expression `inner`
renders as `parenIfUnion inner ++ "[]"`: when `inner` contains the union
operator this is `(inner)[]` — and provably NOT `inner[]` — and when it does
not, it is exactly `inner[]` unparenthesized. -/
theorem toBamlType_array_paren (elem : SchemaNode) (minLength : Option Nat)
    (ctx ctx1 : Ctx) (hintName : Option String) (inner : String)
    (h : toBamlType ((unwrapAll elem).base) ctx (hintConcat hintName "Item") =
      Except.ok (inner, ctx1)) :
    toBamlType (SchemaNode.zArray elem minLength) ctx hintName =
      Except.ok (parenIfUnion inner ++ "[]", ctx1) ∧
    (inner.contains '|' = true →
      parenIfUnion inner ++ "[]" = "(" ++ inner ++ ")" ++ "[]" ∧
      parenIfUnion inner ++ "[]" ≠ inner ++ "[]") ∧
    (inner.contains '|' = false →
      parenIfUnion inner ++ "[]" = inner ++ "[]") := by
  refine ⟨?_, fun hc => ⟨?_, ?_⟩, fun hc => ?_⟩
  · simp only [toBamlType]
    rw [show (unwrapAll (SchemaNode.zArray elem minLength)).base =
      SchemaNode.zArray elem minLength from rfl]
    simp only [toBamlBase, h]
  · simp [parenIfUnion, hc]
  · intro heq
    have hp : parenIfUnion inner = "(" ++ inner ++ ")" := by
      simp [parenIfUnion, hc]
    rw [hp] at heq
    have hl := congrArg String.length heq
    simp only [String.length_append] at hl
    have e1 : "(".length = 1 := rfl
    have e2 : ")".length = 1 := rfl
    rw [e1, e2] at hl
    omega
  · simp [parenIfUnion, hc]

/-- Witness for C6: an array of the union `string | bool` renders as
`(string | bool)[]`; an array of plain `string` renders as `string[]`. -/
theorem toBamlType_array_paren_witness :
    toBamlType (SchemaNode.zArray
        (SchemaNode.zUnion [SchemaNode.zString, SchemaNode.zBoolean]) none)
      emptyCtx none = Except.ok ("(string | bool)[]", emptyCtx) ∧
    toBamlType (SchemaNode.zArray SchemaNode.zString none) emptyCtx none =
      Except.ok ("string[]", emptyCtx) := by
  have h1 : toBamlType ((unwrapAll (SchemaNode.zUnion
      [SchemaNode.zString, SchemaNode.zBoolean])).base) emptyCtx
      (hintConcat none "Item") = Except.ok ("string | bool", emptyCtx) := by
    rw [toBamlType.eq_1]
    show toBamlBase (SchemaNode.zUnion [SchemaNode.zString, SchemaNode.zBoolean])
      emptyCtx (hintConcat none "Item") = _
    simp only [toBamlBase.eq_15, toBamlUnion.eq_2, toBamlUnion.eq_1,
      toBamlType_zString_eval, toBamlType_zBoolean_eval]
    rfl
  have h2 : toBamlType ((unwrapAll SchemaNode.zString).base) emptyCtx
      (hintConcat none "Item") = Except.ok ("string", emptyCtx) :=
    toBamlType_zString_eval emptyCtx _
  constructor
  · rw [(toBamlType_array_paren _ none emptyCtx emptyCtx none "string | bool" h1).1,
      parenIfUnion_pos (by decide)]
    rfl
  · rw [(toBamlType_array_paren _ none emptyCtx emptyCtx none "string" h2).1,
      parenIfUnion_neg (by decide)]
    rfl

/-! ## C1 -/

theorem processBlock_spec (hs block : List Nat) :
    (processBlock hs block).length = 8 ∧ ∀ w ∈ processBlock hs block, w < 2 ^ 32 := by
  simp only [processBlock]
  generalize compressGo (sha256K.zip (extendSchedule block 48))
    (hs.getD 0 0, hs.getD 1 0, hs.getD 2 0, hs.getD 3 0,
     hs.getD 4 0, hs.getD 5 0, hs.getD 6 0, hs.getD 7 0) = st
  obtain ⟨a, b, c, d, e, f, g, h⟩ := st
  constructor
  · simp
  · intro w hw
    simp only [List.mem_cons, List.not_mem_nil, or_false] at hw
    rcases hw with h' | h' | h' | h' | h' | h' | h' | h' <;> subst h' <;>
      exact Nat.mod_lt _ (by norm_num)

theorem sha256Words_spec (s : String) :
    (sha256Words s).length = 8 ∧ ∀ w ∈ sha256Words s, w < 2 ^ 32 := by
  have main : ∀ (blocks : List (List Nat)) (init : List Nat),
      init.length = 8 → (∀ w ∈ init, w < 2 ^ 32) →
      (blocks.foldl processBlock init).length = 8 ∧
        ∀ w ∈ blocks.foldl processBlock init, w < 2 ^ 32 := by
    intro blocks
    induction blocks with
    | nil => intro init h1 h2; exact ⟨h1, h2⟩
    | cons b bs ih =>
      intro init h1 h2
      simpa using ih (processBlock init b) (processBlock_spec init b).1
        (processBlock_spec init b).2
  unfold sha256Words
  exact main _ sha256H0 (by decide) (by decide)

/-- C1 counterexample: the converse direction of the claim — "different
rendered text yields a distinct cache key" — is false: the cache key is a
256-bit digest, so the key function maps the infinitely many strings into a
finite set and two distinct texts with the same key exist (no explicit pair
can be computed, but the claim's universal statement is provably false). -/
theorem cacheKey_collision_exists :
    ∃ t1 t2 : String, t1 ≠ t2 ∧ cacheKey t1 = cacheKey t2 := by
  obtain ⟨x, y, hxy, hf⟩ := Finite.exists_ne_map_eq_of_infinite
    (fun (s : String) (i : Fin 8) =>
      (⟨(sha256Words s).getD i.val 0 % 2 ^ 32, Nat.mod_lt _ (by norm_num)⟩ :
        Fin (2 ^ 32)))
  refine ⟨x, y, hxy, ?_⟩
  have hw : sha256Words x = sha256Words y := by
    have hx := (sha256Words_spec x).1
    have hy := (sha256Words_spec y).1
    refine List.ext_get (by rw [hx, hy]) ?_
    intro n h1 h2
    have hn8 : n < 8 := hx ▸ h1
    have hv := congrArg Fin.val (congrFun hf ⟨n, hn8⟩)
    simp only at hv
    rw [List.getD_eq_get?, List.getD_eq_get?, List.get?_eq_get h1,
      List.get?_eq_get h2, Option.getD_some, Option.getD_some,
      Nat.mod_eq_of_lt ((sha256Words_spec x).2 _ (List.get_mem _ _ _)),
      Nat.mod_eq_of_lt ((sha256Words_spec y).2 _ (List.get_mem _ _ _))] at hv
    exact hv
  unfold cacheKey sha256hex
  rw [hw]

/-- C1 (amended): `buildBamlFromZod` is a pure function of the schema
structure — two runs on the same schema yield the same (byte-identical)
rendered text, and the sha256 cache key computed from that text is
identical on both runs (the key is a function of the rendered text
alone, so identical text always yields an identical key). The converse —
distinct text implying a distinct key — does not hold (see the collision
counterexample); only its contrapositive direction survives: distinct keys
imply distinct texts. -/
theorem buildBamlFromZod_cacheKey_deterministic (s : SchemaNode)
    (b1 b2 : BamlBuild) (h1 : buildBamlFromZod s = Except.ok b1)
    (h2 : buildBamlFromZod s = Except.ok b2) :
    b1.bamlFile = b2.bamlFile ∧
    cacheKey b1.bamlFile = cacheKey b2.bamlFile ∧
    (∀ t1 t2 : String, cacheKey t1 ≠ cacheKey t2 → t1 ≠ t2) := by
  rw [h1] at h2
  cases h2
  exact ⟨rfl, rfl, fun t1 t2 hk he => hk (he ▸ rfl)⟩

/-- The concrete result of `buildBamlFromZod` on the plain string schema,
for C1's witness. -/
def zStringBuild : BamlBuild :=
  ⟨"generator typescript \x7b\n  output_type \"typescript\"\n  module_format \"cjs\"\n\x7d\n\n\nfunction GenRoot(input: string) -> string \x7b\n  client \"openai/gpt-5\"\n  prompt #\"\n    \x7b\x7b input \x7d\x7d\n    \x7b\x7b ctx.output_format \x7d\x7d\n  \"#\n\x7d\n",
   "GenRoot", "string"⟩

/-- Witness for C1 at the plain string schema: the build evaluates to a
concrete result, and two runs agree on text and key. -/
theorem buildBamlFromZod_cacheKey_deterministic_witness :
    buildBamlFromZod SchemaNode.zString = Except.ok zStringBuild ∧
    zStringBuild.bamlFile = zStringBuild.bamlFile ∧
    cacheKey zStringBuild.bamlFile = cacheKey zStringBuild.bamlFile := by
  have ht : toBamlType SchemaNode.zString emptyCtx (some "Root") =
      Except.ok ("string", emptyCtx) := by
    simp [toBamlType, toBamlBase, unwrapAll, unwrapAllGo]
  have h : buildBamlFromZod SchemaNode.zString = Except.ok zStringBuild := by
    simp only [buildBamlFromZod, ht]
    rfl
  have hd := buildBamlFromZod_cacheKey_deterministic SchemaNode.zString
    zStringBuild zStringBuild h h
  exact ⟨h, hd.1, hd.2.1⟩
